import Mathlib

/-!
Verification of the issue-validation and plugin-action-interpretation engine
of the github-project-agent repository.

Strings are modelled as lists of characters (`Str`); Go string builtins
(`strings.Contains`, `strings.Index`, `strings.HasPrefix`, `strings.ToLower`,
`strings.TrimSpace`, `strings.ReplaceAll`, `strings.Split`, `strings.Join`)
are translated below as executable functions on `Str`.
-/

abbrev Str := List Char

/-- Go `strings.ToLower` (character-wise lowering). -/
def lowerStr (s : Str) : Str := s.map Char.toLower

/-- Go `strings.HasPrefix s pat`. -/
def hasPrefixB (s pat : Str) : Bool := pat.isPrefixOf s

/-- Auxiliary scanner for `strIndex`: first position at or after `i`
where `pat` is a prefix of the remaining input. -/
def strIndexAux (pat : Str) : Str → Nat → Option Nat
  | [], i => if pat.isPrefixOf ([] : Str) then some i else none
  | c :: rest, i =>
    if pat.isPrefixOf (c :: rest) then some i else strIndexAux pat rest (i + 1)

/-- Go `strings.Index s pat` (`none` standing for Go's `-1`). -/
def strIndex (s pat : Str) : Option Nat := strIndexAux pat s 0

/-- Go `strings.Contains s pat`. -/
def containsB (s pat : Str) : Bool := (strIndex s pat).isSome

/-- Go `strings.TrimLeft s "\n"`. -/
def trimLeftNl (s : Str) : Str := s.dropWhile (fun c => c = '\n')

/-- Go `strings.TrimRight s "\n"`. -/
def trimRightNl (s : Str) : Str := (s.reverse.dropWhile (fun c => c = '\n')).reverse

/-- Go `strings.TrimSpace` (ASCII whitespace, which is all the sources emit). -/
def trimSpaceL (s : Str) : Str :=
  ((s.dropWhile Char.isWhitespace).reverse.dropWhile Char.isWhitespace).reverse

/-- Decimal rendering of a natural number, as Go `fmt.Sprintf "%d"`. -/
def natToChars (n : Nat) : Str := Nat.toDigits 10 n

/-- Decimal rendering of a Go `int`. -/
def intToChars (i : Int) : Str :=
  if i < 0 then ('-') :: natToChars i.natAbs else natToChars i.natAbs

/-- Single-quote character, used inside several Go format strings. -/
def quoteC : Char := Char.ofNat 39

/-- Go `strings.Replace(s, pat, rep, -1)` for a non-empty `pat`, by fuel
recursion; the fuel `s.length` is an upper bound on the number of characters
the scan can consume, so it never runs out. -/
def replaceLoop (pat rep : Str) : Nat → Str → Str
  | _, [] => []
  | 0, s => s
  | fuel + 1, c :: rest =>
    if pat.isPrefixOf (c :: rest) then
      rep ++ replaceLoop pat rep fuel ((c :: rest).drop pat.length)
    else
      c :: replaceLoop pat rep fuel rest

/-- Go `strings.ReplaceAll` with an empty pattern: `rep` is interleaved
before every character and appended at the end. -/
def replaceAllEmptyPat (rep : Str) : Str → Str
  | [] => rep
  | c :: rest => rep ++ c :: replaceAllEmptyPat rep rest

/-- Go `strings.ReplaceAll s pat rep`. -/
def replaceAll (s pat rep : Str) : Str :=
  if pat = [] then replaceAllEmptyPat rep s else replaceLoop pat rep s.length s

/-- Go `strings.Split s "\n"`. -/
def splitNl (s : Str) : List Str := s.splitOn '\n'

/-- Go `strings.Join lines "\n"`. -/
def joinNl (lines : List Str) : Str := List.intercalate ['\n'] lines

/-- Number of (possibly overlapping) occurrences of `pat` in `s`:
the number of positions at which `pat` is a prefix of the rest of `s`. -/
def countOccur (pat : Str) : Str → Nat
  | [] => if pat.isPrefixOf ([] : Str) then 1 else 0
  | c :: rest =>
    (if pat.isPrefixOf (c :: rest) then 1 else 0) + countOccur pat rest

/-!
Data model: `Issue` (github/client types; creation/update timestamps are
not consulted by any embedded function and are omitted) and
`TaskFormatRules` (src/agent/validator.go).
-/

structure Issue where
  number : Int
  title : Str
  body : Str
  state : Str
  labels : List Str
  assignee : Str
  url : Str
deriving DecidableEq

structure TaskFormatRules where
  requiredSections : List Str
  minDescriptionLength : Int
  requireLabels : Bool
  labelPrefix : Str
deriving DecidableEq

/-- The violation text emitted by the description-length rule. -/
def lengthViolationMsg (n : Int) : Str :=
  ("Description too short (minimum ").toList ++ intToChars n
    ++ (" characters)").toList

/-- The violation text emitted for an absent required section. -/
def sectionViolationMsg (sec : Str) : Str :=
  ("Missing required section: ").toList ++ sec

/-- The violation text emitted by the label rule. -/
def labelViolationMsg (p : Str) : Str :=
  ("Missing priority label (should start with ").toList
    ++ [quoteC] ++ p ++ [quoteC] ++ (")").toList

/-- `Validator.checkFormat` (src/agent/validator.go, lines 96-127): the
length check, then one check per configured required section, then the
label-prefix check, appending violations in that order. -/
def checkFormat (rules : TaskFormatRules) (issue : Issue) : List Str :=
  (if (issue.body.length : Int) < rules.minDescriptionLength then
    [lengthViolationMsg rules.minDescriptionLength]
  else [])
  ++ rules.requiredSections.filterMap (fun sec =>
      if containsB (lowerStr issue.body) (lowerStr sec) then none
      else some (sectionViolationMsg sec))
  ++ (if rules.requireLabels then
        (if issue.labels.any (fun l => hasPrefixB l rules.labelPrefix) then []
         else [labelViolationMsg rules.labelPrefix])
      else [])

/-- The full ordered sequence of violations that could possibly be emitted
for a given rule set: length first, then the sections in configured order,
then the label message. -/
def violationMaster (rules : TaskFormatRules) : List Str :=
  lengthViolationMsg rules.minDescriptionLength
    :: (rules.requiredSections.map sectionViolationMsg
        ++ [labelViolationMsg rules.labelPrefix])

/-!
Content Merger (src/agent/validator.go, lines 209-280).
-/

/-- The agent-notice start marker. -/
def agentNoticeStart : Str := ("<!-- 🤖 Agent Modified -->").toList

/-- The agent-notice end marker. -/
def agentNoticeEnd : Str := ("<!-- /Agent Modified -->").toList

/-- The bullet list built from the violations, one `- %s\n` line each
(validator.go, lines 220-223). -/
def violationsBullets (violations : List Str) : Str :=
  violations.foldl (fun acc v => acc ++ ("- ").toList ++ v ++ ['\n']) []

/-- `Validator.removeExistingAgentNotice` (validator.go, lines 255-280). -/
def removeExistingAgentNotice (body startMarker endMarker : Str) : Str :=
  match strIndex body startMarker with
  | none => body
  | some startIdx =>
    match strIndex (body.drop startIdx) endMarker with
    | none => body
    | some rel =>
      let endIdx := rel + startIdx + endMarker.length
      let before := trimRightNl (body.take startIdx)
      let after := trimLeftNl (body.drop endIdx)
      if before = [] then after
      else if after = [] then before
      else before ++ ('\n') :: ('\n') :: after

/-- The literal notice header between the start marker and the bullets in the
merged output template (validator.go, lines 226-233). -/
def noticeHeaderLit : Str :=
  ("\n<details>\n<summary>🤖 <strong>Automatically modified by Agent</strong> - Click to see what changed</summary>\n\nThis issue was automatically updated to comply with format guidelines.\n\n**Issues fixed:**\n").toList

/-- The literal between the bullets and the end marker. -/
def noticeCloseLit : Str := ("\n</details>\n").toList

/-- The literal separator between the end marker and the fixed body. -/
def afterNoticeLit : Str := ("\n\n---\n\n").toList

/-- The literal between the fixed body and the preserved original. -/
def preservedHeaderLit : Str :=
  ("\n\n---\n\n<details>\n<summary>📋 Original content (preserved for reference)</summary>\n\n").toList

/-- The closing literal after the preserved original. -/
def preservedCloseLit : Str := ("\n\n</details>\n").toList

/-- The output template of `preserveOriginalWithModifications`
(validator.go, lines 226-249), as a function of the fixed body, the violation
list and the already-cleaned original. -/
def mergeFormat (fixedBody : Str) (violations : List Str) (cleanedOriginal : Str) : Str :=
  agentNoticeStart ++ noticeHeaderLit ++ violationsBullets violations
    ++ noticeCloseLit ++ agentNoticeEnd ++ afterNoticeLit ++ fixedBody
    ++ preservedHeaderLit ++ cleanedOriginal ++ preservedCloseLit

/-- `Validator.preserveOriginalWithModifications` (validator.go, lines 211-252):
strip any existing notice from the original, then wrap. -/
def preserveOriginalWithModifications (originalBody fixedBody : Str) (violations : List Str) : Str :=
  mergeFormat fixedBody violations
    (removeExistingAgentNotice originalBody agentNoticeStart agentNoticeEnd)

/-!
Validation Workflow (src/agent/validator.go, lines 61-207).  The external
collaborators (text completion, the issue store's update and comment
endpoints, and the optional "validator" prompt template) are capabilities,
modelled as oracle fields of `VEnv`; effects performed through them are
recorded in a `VEffect` trace.
-/

inductive VEffect where
  | llmCall (prompt : Str)
  | update (issueNumber : Int) (body : Str)
  | comment (issueNumber : Int) (text : Str)
deriving DecidableEq

structure VEnv where
  validatorTemplate : Issue → List Str → Option Str
  llm : Str → Except Str Str
  updateIssue : Int → Str → Except Str Unit
  addComment : Int → Str → Except Str Unit

/-- The inline fallback repair prompt of `fixWithLLM` (validator.go, lines
167-189), with the guidelines text empty: the executor constructs its
validator with `guidelines = nil` (executor.go, line 121). -/
def validatorFallbackPrompt (rules : TaskFormatRules) (issue : Issue) (violations : List Str) : Str :=
  ("You are a task format enforcer for a GitHub project. Fix the following task to comply with the format guidelines.\n\nCurrent task:\nTitle: ").toList
  ++ issue.title
  ++ ("\nBody: ").toList ++ issue.body
  ++ ("\n\nFormat violations:\n").toList ++ List.intercalate ['\n'] violations
  ++ ("\n\nRequired format:\n- Description: At least ").toList
  ++ intToChars rules.minDescriptionLength
  ++ (" characters\n- Required sections: ").toList
  ++ List.intercalate (", ").toList rules.requiredSections
  ++ ("\n- Priority label: Must have a label starting with \"").toList
  ++ rules.labelPrefix
  ++ ("\"\n\nPlease rewrite the task body to fix all violations while preserving the original intent and information. Return ONLY the fixed body text, no explanations.").toList

/-- The prompt sent by `fixWithLLM`: the rendered "validator" template when the
loader has one and rendering succeeds with non-empty output, else the fallback
(validator.go, lines 130-190). -/
def fixPromptOf (env : VEnv) (rules : TaskFormatRules) (issue : Issue) (violations : List Str) : Str :=
  match env.validatorTemplate issue violations with
  | some t => if t = [] then validatorFallbackPrompt rules issue violations else t
  | none => validatorFallbackPrompt rules issue violations

/-- The response clean-up of `fixWithLLM` (validator.go, lines 197-204):
trim, then strip a wrapping fenced code block. -/
def cleanLLMBody (raw : Str) : Str :=
  let fixedBody := trimSpaceL raw
  if hasPrefixB fixedBody (("```").toList) then
    let lines := splitNl fixedBody
    if 2 < lines.length then joinNl ((lines.drop 1).dropLast) else fixedBody
  else fixedBody

/-- The comment posted after a fix (validator.go, lines 85-86). -/
def validatorComment (violations : List Str) : Str :=
  ("🤖 **Agent**: I").toList ++ [quoteC]
    ++ ("ve updated this task to follow our format guidelines.\n\nIssues fixed:\n").toList
    ++ List.intercalate ("\n- ").toList violations

/-- `Validator.ValidateAndFix` (validator.go, lines 61-94), returning the
Go results `(wasValid, comment, err)` as `Except` and the trace of external
calls.  A comment-posting failure is logged and swallowed, so the result of
`addComment` is discarded. -/
def validateAndFix (env : VEnv) (rules : TaskFormatRules) (issue : Issue) :
    Except Str (Bool × Str) × List VEffect :=
  let violations := checkFormat rules issue
  if violations = [] then (.ok (true, []), [])
  else
    let prompt := fixPromptOf env rules issue violations
    match env.llm prompt with
    | .error e =>
      (.error (("failed to fix with LLM: ").toList ++ e), [.llmCall prompt])
    | .ok raw =>
      let fixedBody := cleanLLMBody raw
      let updatedBody := preserveOriginalWithModifications issue.body fixedBody violations
      match env.updateIssue issue.number updatedBody with
      | .error e =>
        (.error (("failed to update issue: ").toList ++ e),
         [.llmCall prompt, .update issue.number updatedBody])
      | .ok _ =>
        let comment := validatorComment violations
        (.ok (false, comment),
         [.llmCall prompt, .update issue.number updatedBody,
          .comment issue.number comment])

/-!
Action Interpreter and plugin executor (src/plugins/executor.go).
Go `interface\x7b\x7d` values in params/config/result maps are modelled by
`GoVal`; Go maps by association lists with overwrite (`mapSet`) and
lookup (`mapGet`).  `float64` params are modelled as rationals (the claims
only depend on their truncation toward zero).
-/

inductive GoVal where
  | vstr (s : Str)
  | vint (n : Int)
  | vfloat (q : Rat)
  | vbool (b : Bool)
  | vstrList (l : List Str)
  | vissues (l : List (Int × Str × Bool × Bool × Str))
deriving DecidableEq

def mapGet (m : List (Str × GoVal)) (k : Str) : Option GoVal :=
  match m with
  | [] => none
  | (k', v) :: rest => if k' = k then some v else mapGet rest k

def mapSet (m : List (Str × GoVal)) (k : Str) (v : GoVal) : List (Str × GoVal) :=
  match m with
  | [] => [(k, v)]
  | (k', v') :: rest => if k' = k then (k', v) :: rest else (k', v') :: mapSet rest k v

/-- A plugin agent (plugins/types; the `Type` field is renamed `ptype`).
Trigger data and the prompt-template path are consumed only through the
abstract template capability and are omitted. -/
structure PluginAgent where
  name : Str
  ptype : Str
  actions : List Str
  config : List (Str × GoVal)
deriving DecidableEq

/-- One observable call to an external collaborator. -/
inductive Effect where
  | getIssue (n : Int)
  | listIssues
  | llmCall (prompt : Str)
  | addComment (n : Int) (text : Str)
deriving DecidableEq

/-- External collaborators of the generic executor: issue store, text
completion, and the prompt-template loader/renderer (`template` is the
rendered template for the agent when the loader resolves one). -/
structure GEnv where
  getIssue : Int → Except Str Issue
  llm : Str → Except Str Str
  addComment : Int → Str → Except Str Unit
  template : PluginAgent → Issue → Option Str

/-- Go `int(f)` for a `float64`: truncation toward zero. -/
def ratTrunc (q : Rat) : Int := if 0 ≤ q then q.floor else q.ceil

/-- Positive issue number found under key `k` as a Go `int`. -/
def intParam (params : List (Str × GoVal)) (k : Str) : Option Int :=
  match mapGet params k with
  | some (.vint n) => if 0 < n then some n else none
  | _ => none

/-- Positive issue number found under key `k` as a Go `float64`. -/
def floatParam (params : List (Str × GoVal)) (k : Str) : Option Int :=
  match mapGet params k with
  | some (.vfloat q) => if 0 < ratTrunc q then some (ratTrunc q) else none
  | _ => none

/-- `PluginExecutor.extractIssueNumber` (executor.go, lines 1164-1188). -/
def extractIssueNumber (params : List (Str × GoVal)) : Int × Bool :=
  match intParam params (("issue_number").toList) with
  | some n => (n, true)
  | none =>
    match intParam params (("issue").toList) with
    | some n => (n, true)
    | none =>
      match floatParam params (("issue_number").toList) with
      | some n => (n, true)
      | none =>
        match floatParam params (("issue").toList) with
        | some n => (n, true)
        | none => (0, false)

/-- Strip a wrapping fenced code block (executor.go, lines 1287-1297). -/
def stripCodeFence (summary : Str) : Str :=
  if hasPrefixB summary (("```markdown").toList) then
    (let lines := splitNl summary
     if 2 < lines.length then joinNl ((lines.drop 1).dropLast) else summary)
  else if hasPrefixB summary (("```").toList) then
    (let lines := splitNl summary
     if 2 < lines.length then joinNl ((lines.drop 1).dropLast) else summary)
  else summary

/-- The collapse loop of executor.go, lines 1334-1336; each pass shortens the
string when the pattern is present, so fuel `s.length` never runs out. -/
def collapseNl : Nat → Str → Str
  | 0, s => s
  | fuel + 1, s =>
    if containsB s (("\n\n\n").toList) then
      collapseNl fuel (replaceAll s (("\n\n\n").toList) (("\n\n").toList))
    else s

/-- Go `strings.SplitN(s, ":", 2)`. -/
def splitN2Colon (s : Str) : List Str :=
  match strIndex s [':'] with
  | none => [s]
  | some i => [s.take i, s.drop (i + 1)]

/-- The response post-processing of `executeLLMAction`
(executor.go, lines 1283-1338). -/
def postProcessSummary (raw : Str) : Str :=
  let summary := trimSpaceL raw
  let summary := stripCodeFence summary
  let summary := replaceAll summary (("\r\n").toList) ['\n']
  let summary := trimSpaceL summary
  let summary :=
    if hasPrefixB summary (("Summary:").toList)
        || hasPrefixB summary (("summary:").toList) then
      (let parts := splitN2Colon summary
       if 1 < parts.length then
         ("## Task Summary\n\n**Objective**: ").toList ++ trimSpaceL (parts.getD 1 [])
       else summary)
    else summary
  let summary :=
    if !(hasPrefixB summary (("## Task Summary").toList))
        && (containsB summary (("Objective").toList)
            || containsB summary (("objective").toList)) then
      ("## Task Summary\n\n").toList ++ summary
    else summary
  let summary := replaceAll summary (("\n##").toList) (("\n\n##").toList)
  let summary := replaceAll summary (("\n**").toList) (("\n\n**").toList)
  let summary := replaceAll summary (("\n\n\n**").toList) (("\n\n**").toList)
  let summary := collapseNl summary.length summary
  trimSpaceL summary

/-- The inline fallback prompt of `executeLLMAction` for a non-nil issue
(executor.go, lines 1244-1259); the call site in `executeGeneric` always
passes a fetched (non-nil) issue. -/
def genericFallbackPrompt (issue : Issue) : Str :=
  ("You are a helpful assistant. Based on the following GitHub issue, provide a concise summary.\n\nTitle: ").toList
  ++ issue.title
  ++ ("\nBody: ").toList ++ issue.body
  ++ ("\nLabels: ").toList ++ List.intercalate (", ").toList issue.labels
  ++ ("\nState: ").toList ++ issue.state
  ++ ("\nAssignee: ").toList ++ issue.assignee
  ++ ("\n\nProvide a clear, concise summary.").toList

/-- The prompt of `executeLLMAction`: the rendered template when one resolves
to non-empty output, else the inline fallback (executor.go, lines 1234-1273). -/
def llmPromptOf (env : GEnv) (agent : PluginAgent) (issue : Issue) : Str :=
  match env.template agent issue with
  | some t => if t = [] then genericFallbackPrompt issue else t
  | none => genericFallbackPrompt issue

/-- Agents whose name suggests project-wide scope gather project statistics
(one `ListIssues` round trip) before prompting (executor.go, lines 1218-1227). -/
def nameSuggestsProjectStats (agent : PluginAgent) : Bool :=
  containsB (lowerStr agent.name) (("executive").toList)
  || containsB (lowerStr agent.name) (("progress").toList)
  || containsB (lowerStr agent.name) (("summary").toList)

/-- `PluginExecutor.executeLLMAction` (executor.go, lines 1190-1344):
template-or-fallback prompt, one completion call, post-processing, and a
result map holding the processed text under both `summary` and `content`. -/
def executeLLMAction (env : GEnv) (agent : PluginAgent) (issue : Issue) :
    List (Str × GoVal) × List Effect :=
  let statsEffects := if nameSuggestsProjectStats agent then [Effect.listIssues] else []
  let prompt := llmPromptOf env agent issue
  match env.llm prompt with
  | .error e =>
    ([(("error").toList, .vstr ((("LLM call failed: ").toList) ++ e))],
     statsEffects ++ [Effect.llmCall prompt])
  | .ok raw =>
    let summary := postProcessSummary raw
    ([(("summary").toList, .vstr summary), (("content").toList, .vstr summary)],
     statsEffects ++ [Effect.llmCall prompt])

/-- The comment text built by `addCommentToIssue` (executor.go, lines
1356-1366). -/
def addCommentBody (agentName : Str) (content : Str) : Str :=
  let content := trimSpaceL content
  let content := if hasPrefixB content ['\n'] then content else ('\n') :: content
  ("🤖 **").toList ++ agentName ++ ("**\n\n").toList ++ content

/-- `PluginExecutor.addCommentToIssue` (executor.go, lines 1347-1369):
re-fetches the issue (to resolve its repository) and posts the comment. -/
def addCommentToIssue (env : GEnv) (agent : PluginAgent) (issueNum : Int) (content : Str) :
    Except Str Unit × List Effect :=
  match env.getIssue issueNum with
  | .error e => (.error e, [Effect.getIssue issueNum])
  | .ok _issue =>
    let comment := addCommentBody agent.name content
    (env.addComment issueNum comment,
     [Effect.getIssue issueNum, Effect.addComment issueNum comment])

/-- The length-gate keyword predicate (executor.go, line 1070). -/
def isLengthGateAction (action : Str) : Bool :=
  let a := lowerStr action
  containsB a (("check").toList)
    && (containsB a (("length").toList) || containsB a (("long").toList)
        || containsB a (("threshold").toList))

/-- The generate keyword predicate (executor.go, lines 1095-1096). -/
def isGenerateAction (action : Str) : Bool :=
  let a := lowerStr action
  (containsB a (("llm").toList) || containsB a (("generate").toList))
    && (containsB a (("summary").toList) || containsB a (("content").toList)
        || containsB a (("text").toList))

/-- The add-comment keyword predicate (executor.go, line 1119). -/
def isAddCommentAction (action : Str) : Bool :=
  let a := lowerStr action
  containsB a (("add").toList) && containsB a (("comment").toList)

/-- The configured minimum body length for the length gate: 200 unless the
agent's config maps `min_length_for_summary` to a Go `int`
(executor.go, lines 1079-1082). -/
def minLengthFor (agent : PluginAgent) : Int :=
  match mapGet agent.config (("min_length_for_summary").toList) with
  | some (.vint n) => n
  | _ => 200

/-- The skip message of the length gate (executor.go, line 1086). -/
def tooShortMsg (bodyLen : Nat) (minLength : Int) : Str :=
  ("Task is too short to summarize (").toList ++ natToChars bodyLen
    ++ (" chars, minimum ").toList ++ intToChars minLength ++ (")").toList

/-- The fallback comment when no summary is in the result map
(executor.go, line 1134). -/
def executedOkComment (agentName : Str) : Str :=
  ("🤖 **").toList ++ agentName ++ ("** executed successfully.").toList

/-- The message set after a successful comment post (executor.go, line 1140). -/
def summaryAddedMsg (issueNum : Int) : Str :=
  ("Summary generated and added as comment to issue #").toList ++ intToChars issueNum

/-- The default message when no action set one (executor.go, line 1157). -/
def genericExecutedMsg (agent : PluginAgent) : Str :=
  ("Plugin ").toList ++ [quoteC] ++ agent.name ++ [quoteC]
    ++ (" executed with ").toList ++ natToChars agent.actions.length
    ++ (" actions").toList

/-- State threaded through the action loop of `executeGeneric`: the result
map, the cached issue, and the trace of external calls so far. -/
structure GState where
  result : List (Str × GoVal)
  issue : Option Issue
  trace : List Effect

/-- Outcome of `executeGeneric`: the Go `(map, error)` pair plus the trace. -/
abbrev GOut := Except Str (List (Str × GoVal)) × List Effect

/-- The `if issue == nil` fetch-and-cache step shared by all three action
families (fatal on store error). -/
def ensureIssue (env : GEnv) (issueNum : Int) (st : GState) :
    Except (Str × List Effect) (Issue × GState) :=
  match st.issue with
  | some i => .ok (i, st)
  | none =>
    match env.getIssue issueNum with
    | .error e =>
      .error ((("failed to get issue: ").toList ++ e),
        st.trace ++ [Effect.getIssue issueNum])
    | .ok i =>
      .ok (i, { st with issue := some i, trace := st.trace ++ [Effect.getIssue issueNum] })

/-- One action phrase of `executeGeneric` (executor.go, lines 1066-1153):
the three keyword families are tried in order on the same phrase; the length
gate can finish the whole call early (`Sum.inr`). -/
def doGenericAction (env : GEnv) (agent : PluginAgent) (issueNum : Int) (hasIssue : Bool)
    (action : Str) (st : GState) : GState ⊕ GOut :=
  let afterGate : GState ⊕ GOut :=
    if isLengthGateAction action && hasIssue then
      match ensureIssue env issueNum st with
      | .error (e, tr) => .inr (.error e, tr)
      | .ok (i, st1) =>
        let minLength := minLengthFor agent
        if (i.body.length : Int) < minLength then
          .inr (.ok (mapSet
              (mapSet st1.result (("status").toList) (.vstr (("skipped").toList)))
              (("message").toList) (.vstr (tooShortMsg i.body.length minLength))),
            st1.trace)
        else
          let r1 :=
            mapSet (mapSet st1.result (("task_length").toList) (.vint i.body.length))
              (("length_check_passed").toList) (.vbool true)
          .inl { st1 with result := r1 }
    else .inl st
  match afterGate with
  | .inr out => .inr out
  | .inl st =>
    let afterGen : GState ⊕ GOut :=
      if isGenerateAction action && hasIssue then
        match ensureIssue env issueNum st with
        | .error (e, tr) => .inr (.error e, tr)
        | .ok (i, st1) =>
          let llmOut := executeLLMAction env agent i
          let st2 := { st1 with trace := st1.trace ++ llmOut.2 }
          match mapGet llmOut.1 (("summary").toList) with
          | some (.vstr s) =>
            if s ≠ [] then
              let r1 :=
                mapSet (mapSet st2.result (("summary").toList) (.vstr s))
                  (("llm_called").toList) (.vbool true)
              .inl { st2 with result := r1 }
            else
              .inl st2
          | _ =>
            match mapGet llmOut.1 (("content").toList) with
            | some (.vstr s) =>
              if s ≠ [] then
                let r1 :=
                  mapSet (mapSet st2.result (("summary").toList) (.vstr s))
                    (("llm_called").toList) (.vbool true)
                .inl { st2 with result := r1 }
              else
                .inl st2
            | _ => .inl st2
      else .inl st
    match afterGen with
    | .inr out => .inr out
    | .inl st =>
      if isAddCommentAction action && hasIssue then
        match ensureIssue env issueNum st with
        | .error (e, tr) => .inr (.error e, tr)
        | .ok (_i, st1) =>
          let commentContent :=
            match mapGet st1.result (("summary").toList) with
            | some (.vstr s) => if s = [] then executedOkComment agent.name else s
            | _ => executedOkComment agent.name
          let posted := addCommentToIssue env agent issueNum commentContent
          let st2 := { st1 with trace := st1.trace ++ posted.2 }
          match posted.1 with
          | .ok _ =>
            let r1 := mapSet st2.result (("comment_added").toList) (.vbool true)
            let r2 :=
              if (mapGet r1 (("message").toList)).isNone then
                mapSet r1 (("message").toList) (.vstr (summaryAddedMsg issueNum))
              else if (mapGet r1 (("summary").toList)).isSome then
                mapSet r1 (("message").toList) (.vstr (summaryAddedMsg issueNum))
              else r1
            let r3 := mapSet r2 (("status").toList) (.vstr (("completed").toList))
            .inl { st2 with result := r3 }
          | .error e =>
            let r1 := mapSet st2.result (("comment_error").toList) (.vstr e)
            .inl { st2 with result := r1 }
      else .inl st

/-- The action loop plus the final default-message step of `executeGeneric`
(executor.go, lines 1066-1160). -/
def genericLoop (env : GEnv) (agent : PluginAgent) (issueNum : Int) (hasIssue : Bool) :
    List Str → GState → GOut
  | [], st =>
    let result :=
      if (mapGet st.result (("message").toList)).isNone then
        mapSet st.result (("message").toList) (.vstr (genericExecutedMsg agent))
      else st.result
    (.ok result, st.trace)
  | action :: rest, st =>
    match doGenericAction env agent issueNum hasIssue action st with
    | .inl st' => genericLoop env agent issueNum hasIssue rest st'
    | .inr out => out

/-- `PluginExecutor.executeGeneric` (executor.go, lines 1046-1161). -/
def executeGeneric (env : GEnv) (agent : PluginAgent) (params : List (Str × GoVal)) : GOut :=
  let result0 : List (Str × GoVal) :=
    [((("agent").toList), .vstr agent.name),
     ((("type").toList), .vstr agent.ptype),
     ((("status").toList), .vstr (("executed").toList)),
     ((("actions").toList), .vstrList agent.actions)]
  let en := extractIssueNumber params
  let result1 := if en.2 then mapSet result0 (("issue").toList) (.vint en.1) else result0
  genericLoop env agent en.1 en.2 agent.actions { result := result1, issue := none, trace := [] }

/-!
Batch validation, `PluginExecutor.executeValidator` (executor.go, lines
62-218).  The issue store's persistent state is a `World` (the issue
collection); `AddLabel` mutates it (idempotently, per the client contract),
while body updates performed inside `ValidateAndFix` go through the `VEnv`
oracle and never alter label sets or states.  The list of issues on which
`ValidateAndFix` was invoked is returned as the run's call trace.
-/

structure World where
  issues : List Issue
deriving DecidableEq

/-- The sentinel label marking an already-validated issue. -/
def validatorSentinel : Str := ("agent-validator").toList

/-- Membership test for the sentinel label (executor.go, lines 132-138). -/
def hasValidatorLabel (issue : Issue) : Bool :=
  issue.labels.any (fun l => l = validatorSentinel)

/-- `ListIssues(ctx, "open")`: the open issues of the store. -/
def listOpenIssues (w : World) : List Issue :=
  w.issues.filter (fun i => i.state = ("open").toList)

/-- `GetIssue` by number. -/
def wGetIssue (w : World) (n : Int) : Except Str Issue :=
  match w.issues.find? (fun i => i.number = n) with
  | some i => .ok i
  | none => .error (("issue not found").toList)

/-- `AddLabel`: add `label` to the issue(s) numbered `n` unless already
present (the client treats an existing label as a no-op). -/
def addLabelW (w : World) (n : Int) (label : Str) : World :=
  ⟨w.issues.map (fun i =>
    if i.number = n then
      (if label ∈ i.labels then i else { i with labels := i.labels ++ [label] })
    else i)⟩

/-- The inline issue-number extraction of `executeValidator` (executor.go,
lines 64-80); unlike `extractIssueNumber` it keeps non-positive `int` hits. -/
def validatorParamIssue (params : List (Str × GoVal)) : Int × Bool :=
  match mapGet params (("issue_number").toList) with
  | some (.vint n) => (n, true)
  | _ =>
    match mapGet params (("issue").toList) with
    | some (.vint n) => (n, true)
    | _ =>
      match mapGet params (("issue_number").toList) with
      | some (.vfloat q) => (ratTrunc q, true)
      | _ =>
        match mapGet params (("issue").toList) with
        | some (.vfloat q) => (ratTrunc q, true)
        | _ => (0, false)

/-- The hard-coded rules of `executeValidator` (executor.go, lines 113-118). -/
def defaultValidatorRules : TaskFormatRules :=
  ⟨[("Description").toList, ("Acceptance Criteria").toList], 50, true,
   ("priority:").toList⟩

/-- The per-issue error recorded in the batch error list (executor.go,
line 170). -/
def issueErrMsg (n : Int) (e : Str) : Str :=
  ("issue #").toList ++ intToChars n ++ (": ").toList ++ e

/-- The early-return message (executor.go, line 152). -/
def allValidatedMsg : Str :=
  ("All issues already validated (have ").toList ++ [quoteC]
    ++ ("agent-validator").toList ++ [quoteC] ++ (" label)").toList

/-- The batch summary message (executor.go, line 204). -/
def batchMsg (validated fixed total : Nat) : Str :=
  ("Validated ").toList ++ natToChars validated ++ (" issues (").toList
    ++ natToChars fixed ++ (" fixed, ").toList ++ natToChars (validated - fixed)
    ++ (" already valid), ").toList ++ natToChars (total - validated)
    ++ (" skipped (already validated)").toList

/-- State of the batch loop (executor.go, lines 162-193). -/
structure VBatchState where
  world : World
  validatedCount : Nat
  fixedCount : Nat
  errors : List Str
  validatedIssues : List (Int × Str × Bool × Bool × Str)
  calls : List Issue

/-- The batch loop body: run `ValidateAndFix` on each issue; a per-issue
error is recorded and skips the label; otherwise the sentinel label is added
(failure logged, not fatal) and the counters advance. -/
def validatorLoop (env : VEnv) (addLabelRes : Int → Except Str Unit) :
    List Issue → VBatchState → VBatchState
  | [], st => st
  | issue :: rest, st =>
    let st := { st with calls := st.calls ++ [issue] }
    match (validateAndFix env defaultValidatorRules issue).1 with
    | .error e =>
      validatorLoop env addLabelRes rest
        { st with errors := st.errors ++ [issueErrMsg issue.number e] }
    | .ok r =>
      let w' :=
        match addLabelRes issue.number with
        | .ok _ => addLabelW st.world issue.number validatorSentinel
        | .error _ => st.world
      let recs := st.validatedIssues ++ [(issue.number, issue.title, r.1, !r.1, r.2)]
      validatorLoop env addLabelRes rest
        { st with world := w',
                  validatedCount := st.validatedCount + 1,
                  fixedCount := if r.1 then st.fixedCount else st.fixedCount + 1,
                  validatedIssues := recs }

/-- `PluginExecutor.executeValidator` (executor.go, lines 62-218), returning
the result map (or error), the final store state, and the list of issues the
per-issue workflow was invoked on.  The label check on a specifically
requested issue (lines 90-106) has no effect — both branches of the Go
conditional are empty — so only the fetch itself (and its possible failure)
is modelled. -/
def executeValidator (env : VEnv) (addLabelRes : Int → Except Str Unit)
    (agent : PluginAgent) (params : List (Str × GoVal)) (w : World) :
    Except Str (List (Str × GoVal)) × World × List Issue :=
  let pn := validatorParamIssue params
  let specificFetch : Except Str (Option Issue) :=
    if pn.2 && 0 < pn.1 then
      match wGetIssue w pn.1 with
      | .error e => .error ((("failed to get issue: ").toList) ++ e)
      | .ok i => .ok (some i)
    else .ok none
  match specificFetch with
  | .error e => (.error e, w, [])
  | .ok specificIssue =>
    let allIssues := listOpenIssues w
    let issuesToValidate := allIssues.filter (fun i => !hasValidatorLabel i)
    if issuesToValidate = [] then
      let base : List (Str × GoVal) :=
        [((("agent").toList), .vstr agent.name),
         ((("status").toList), .vstr (("completed").toList)),
         ((("total_issues").toList), .vint allIssues.length),
         ((("validated_count").toList), .vint 0),
         ((("skipped_count").toList), .vint allIssues.length),
         ((("message").toList), .vstr allValidatedMsg)]
      let result :=
        match specificIssue with
        | some i =>
          mapSet (mapSet base (("issue").toList) (.vint i.number))
            (("title").toList) (.vstr i.title)
        | none => base
      (.ok result, w, [])
    else
      let st := validatorLoop env addLabelRes issuesToValidate
        ⟨w, 0, 0, [], [], []⟩
      let base : List (Str × GoVal) :=
        [((("agent").toList), .vstr agent.name),
         ((("status").toList), .vstr (("completed").toList)),
         ((("total_issues").toList), .vint allIssues.length),
         ((("validated_count").toList), .vint st.validatedCount),
         ((("fixed_count").toList), .vint st.fixedCount),
         ((("skipped_count").toList),
           .vint ((allIssues.length : Int) - st.validatedCount)),
         ((("validated_issues").toList), .vissues st.validatedIssues),
         ((("message").toList),
           .vstr (batchMsg st.validatedCount st.fixedCount allIssues.length))]
      let withSpecific :=
        match specificIssue with
        | some i =>
          mapSet (mapSet base (("requested_issue").toList) (.vint i.number))
            (("requested_title").toList) (.vstr i.title)
        | none => base
      let result :=
        if st.errors = [] then withSpecific
        else
          mapSet (mapSet withSpecific (("errors").toList) (.vstrList st.errors))
            (("error_count").toList) (.vint st.errors.length)
      (.ok result, st.world, st.calls)

/-!
Concrete fixtures used by witness theorems.
-/

/-- An issue with empty body and no labels. -/
def emptyIssue : Issue := ⟨1, [], [], ("open").toList, [], [], []⟩

/-- The end-to-end scenario issue with body `"short"`. -/
def shortIssue : Issue := ⟨1, [], ("short").toList, ("open").toList, [], [], []⟩

/-- Rules with no requirement at all. -/
def trivialRules : TaskFormatRules := ⟨[], 0, false, []⟩

/-- Rules demanding one character of body. -/
def minOneRules : TaskFormatRules := ⟨[], 1, false, []⟩

/-- Rules with a duplicated required section. -/
def dupSectionRules : TaskFormatRules := ⟨[("A").toList, ("A").toList], 0, false, []⟩

/-- A validator environment none of whose capabilities succeeds. -/
def inertVEnv : VEnv :=
  ⟨fun _ _ => none, fun _ => .error [], fun _ _ => .error [], fun _ _ => .error []⟩

/-- A validator environment where completion and update succeed but comment
posting fails. -/
def commentFailVEnv : VEnv :=
  ⟨fun _ _ => none, fun _ => .ok (("ok").toList), fun _ _ => .ok (),
   fun _ _ => .error (("x").toList)⟩

/-- A generic-executor environment none of whose capabilities succeeds. -/
def inertGEnv : GEnv :=
  ⟨fun _ => .error [], fun _ => .error [], fun _ _ => .error [], fun _ _ => none⟩

/-- A generic-executor environment whose completion capability returns
`"Result"`. -/
def llmOkGEnv : GEnv :=
  ⟨fun _ => .error [], fun _ => .ok (("Result").toList), fun _ _ => .error [],
   fun _ _ => none⟩

/-- An agent whose three action phrases match the three keyword families. -/
def keywordAgent : PluginAgent :=
  ⟨("Priority Calculator").toList, ("custom").toList,
   [("Check if task body is long enough").toList,
    ("Generate summary using LLM").toList,
    ("Add summary as a comment").toList], []⟩

/-- Params carrying a non-positive issue number. -/
def zeroIssueParams : List (Str × GoVal) := [((("issue_number").toList), .vint 0)]

/-- An agent whose generate phrase precedes its length-gate phrase, with a
configured 50-character minimum. -/
def genFirstAgent : PluginAgent :=
  ⟨("Notes Helper").toList, ("custom").toList,
   [("Generate summary using LLM").toList,
    ("Check if task body is long enough").toList],
   [((("min_length_for_summary").toList), .vint 50)]⟩

/-- The same agent with only the length-gate phrase. -/
def gateOnlyAgent : PluginAgent :=
  ⟨("Notes Helper").toList, ("custom").toList,
   [("Check if task body is long enough").toList],
   [((("min_length_for_summary").toList), .vint 50)]⟩

/-- An issue with a 10-character body. -/
def shortBodyIssue : Issue :=
  ⟨7, ("T").toList, ("0123456789").toList, ("open").toList, [], [], ("u").toList⟩

/-- An executor environment serving `shortBodyIssue` and a one-character
completion. -/
def shortIssueGEnv : GEnv :=
  ⟨fun _ => .ok shortBodyIssue, fun _ => .ok (("S").toList), fun _ _ => .ok (),
   fun _ _ => none⟩

/-- Params selecting issue number 7. -/
def issue7Params : List (Str × GoVal) := [((("issue_number").toList), .vint 7)]

/-!
Bridging lemmas between the executable Go-string operations and their
mathematical counterparts.
-/

theorem strIndexAux_isSome_iff (pat : Str) :
    ∀ (s : Str) (i : Nat),
      (strIndexAux pat s i).isSome = true ↔ ∃ n, pat <+: s.drop n := by
  intro s
  induction s with
  | nil =>
    intro i
    by_cases h : pat.isPrefixOf ([] : Str)
    · simp only [strIndexAux, if_pos h, Option.isSome_some]
      exact iff_of_true trivial ⟨0, List.isPrefixOf_iff_prefix.mp h⟩
    · simp only [strIndexAux, if_neg h]
      refine iff_of_false (by simp) ?_
      rintro ⟨n, hn⟩
      rw [List.drop_nil] at hn
      exact h (List.isPrefixOf_iff_prefix.mpr hn)
  | cons c rest ih =>
    intro i
    by_cases h : pat.isPrefixOf (c :: rest)
    · simp only [strIndexAux, if_pos h, Option.isSome_some]
      exact iff_of_true trivial ⟨0, List.isPrefixOf_iff_prefix.mp h⟩
    · simp only [strIndexAux, if_neg h]
      rw [ih (i + 1)]
      constructor
      · rintro ⟨n, hn⟩
        exact ⟨n + 1, by simpa using hn⟩
      · rintro ⟨n, hn⟩
        cases n with
        | zero =>
          rw [List.drop_zero] at hn
          exact absurd (List.isPrefixOf_iff_prefix.mpr hn) h
        | succ m => exact ⟨m, by simpa using hn⟩

theorem containsB_infix_iff (s pat : Str) : containsB s pat = true ↔ pat <:+: s := by
  unfold containsB strIndex
  rw [strIndexAux_isSome_iff]
  constructor
  · rintro ⟨n, hn⟩
    exact hn.isInfix.trans (List.drop_suffix n s).isInfix
  · rintro ⟨u, v, huv⟩
    refine ⟨u.length, ?_⟩
    rw [← huv, List.append_assoc, List.drop_left]
    exact List.prefix_append pat v

theorem strIndex_eq_none_iff (s pat : Str) :
    strIndex s pat = none ↔ ∀ n, ¬ pat <+: s.drop n := by
  constructor
  · intro h n hp
    have hs := (strIndexAux_isSome_iff pat s 0).mpr ⟨n, hp⟩
    rw [show strIndexAux pat s 0 = strIndex s pat from rfl, h] at hs
    cases hs
  · intro h
    cases hi : strIndex s pat with
    | none => rfl
    | some v =>
      have hs : (strIndexAux pat s 0).isSome = true := by
        rw [show strIndexAux pat s 0 = strIndex s pat from rfl, hi]; rfl
      rcases (strIndexAux_isSome_iff pat s 0).mp hs with ⟨n, hn⟩
      exact absurd hn (h n)

theorem ite_singleton_eq_nil_iff (c : Prop) [Decidable c] (x : Str) :
    ((if c then [x] else []) = []) ↔ ¬c := by
  by_cases h : c <;> simp [h]

/-- C1: `checkFormat` returns the empty violation list exactly when the body
is long enough, every required section occurs case-insensitively as a
substring of the body, and either labels are not required or some label of
the issue starts with the configured prefix. -/
theorem checkFormat_empty_iff (rules : TaskFormatRules) (issue : Issue) :
    checkFormat rules issue = [] ↔
      (rules.minDescriptionLength ≤ (issue.body.length : Int)
       ∧ (∀ sec ∈ rules.requiredSections, lowerStr sec <:+: lowerStr issue.body)
       ∧ (rules.requireLabels = false
          ∨ ∃ l ∈ issue.labels, rules.labelPrefix <+: l)) := by
  unfold checkFormat
  rw [List.append_eq_nil, List.append_eq_nil]
  constructor
  · rintro ⟨⟨h1, h2⟩, h3⟩
    refine ⟨?_, ?_, ?_⟩
    · exact not_lt.mp ((ite_singleton_eq_nil_iff _ _).mp h1)
    · intro sec hsec
      have := (List.filterMap_eq_nil_iff.mp h2) sec hsec
      by_cases hc : containsB (lowerStr issue.body) (lowerStr sec) = true
      · exact (containsB_infix_iff _ _).mp hc
      · rw [if_neg (by simpa using hc)] at this
        cases this
    · cases hr : rules.requireLabels with
      | false => exact Or.inl rfl
      | true =>
        rw [hr] at h3
        simp only [if_pos] at h3
        cases ha : issue.labels.any (fun l => hasPrefixB l rules.labelPrefix) with
        | true =>
          rcases List.any_eq_true.mp ha with ⟨l, hl, hp⟩
          exact Or.inr ⟨l, hl, List.isPrefixOf_iff_prefix.mp hp⟩
        | false =>
          rw [ha] at h3
          cases h3
  · rintro ⟨h1, h2, h3⟩
    refine ⟨⟨?_, ?_⟩, ?_⟩
    · exact (ite_singleton_eq_nil_iff _ _).mpr (not_lt.mpr h1)
    · refine List.filterMap_eq_nil_iff.mpr ?_
      intro sec hsec
      rw [if_pos ((containsB_infix_iff _ _).mpr (h2 sec hsec))]
    · rcases h3 with hr | ⟨l, hl, hp⟩
      · rw [hr]
        rfl
      · cases hr : rules.requireLabels with
        | false => rfl
        | true =>
          have ha : issue.labels.any (fun l => hasPrefixB l rules.labelPrefix) = true :=
            List.any_eq_true.mpr ⟨l, hl, List.isPrefixOf_iff_prefix.mpr hp⟩
          simp [ha]

theorem ite_singleton_sublist (c : Prop) [Decidable c] (x : Str) :
    List.Sublist (if c then [x] else []) [x] := by
  by_cases h : c <;> simp [h]

theorem filterMap_guard_sublist_map (p : Str → Bool) (g : Str → Str) (l : List Str) :
    List.Sublist
      (l.filterMap (fun s => if p s = true then none else some (g s)))
      (l.map g) := by
  induction l with
  | nil => simp
  | cons a t ih =>
    by_cases h : p a = true
    · simpa [h] using List.Sublist.cons (g a) ih
    · simpa [h] using List.Sublist.cons₂ (g a) ih

theorem label_branch_sublist (rules : TaskFormatRules) (issue : Issue) :
    List.Sublist
      (if rules.requireLabels then
        (if issue.labels.any (fun l => hasPrefixB l rules.labelPrefix) then []
         else [labelViolationMsg rules.labelPrefix])
       else [])
      [labelViolationMsg rules.labelPrefix] := by
  cases rules.requireLabels with
  | false => simp
  | true =>
    cases issue.labels.any (fun l => hasPrefixB l rules.labelPrefix) with
    | false => simp
    | true => simp

theorem checkFormat_sublist_master (rules : TaskFormatRules) (issue : Issue) :
    List.Sublist (checkFormat rules issue) (violationMaster rules) := by
  unfold checkFormat violationMaster
  rw [List.append_assoc]
  have hmaster : lengthViolationMsg rules.minDescriptionLength
      :: (rules.requiredSections.map sectionViolationMsg
          ++ [labelViolationMsg rules.labelPrefix])
      = [lengthViolationMsg rules.minDescriptionLength]
        ++ (rules.requiredSections.map sectionViolationMsg
            ++ [labelViolationMsg rules.labelPrefix]) := rfl
  rw [hmaster]
  refine List.Sublist.append (ite_singleton_sublist _ _) ?_
  refine List.Sublist.append ?_ (label_branch_sublist rules issue)
  exact filterMap_guard_sublist_map
    (fun sec => containsB (lowerStr issue.body) (lowerStr sec)) sectionViolationMsg
    rules.requiredSections

theorem sectionViolationMsg_injective : Function.Injective sectionViolationMsg := by
  intro a b h
  exact List.append_cancel_left h

theorem lengthMsg_ne_sectionMsg (n : Int) (s : Str) :
    lengthViolationMsg n ≠ sectionViolationMsg s := by
  intro h
  have h0 := congrArg List.head? h
  rw [show (lengthViolationMsg n).head? = some ('D') from rfl,
      show (sectionViolationMsg s).head? = some ('M') from rfl] at h0
  exact absurd h0 (by decide)

theorem lengthMsg_ne_labelMsg (n : Int) (p : Str) :
    lengthViolationMsg n ≠ labelViolationMsg p := by
  intro h
  have h0 := congrArg List.head? h
  rw [show (lengthViolationMsg n).head? = some ('D') from rfl,
      show (labelViolationMsg p).head? = some ('M') from rfl] at h0
  exact absurd h0 (by decide)

theorem sectionMsg_ne_labelMsg (s p : Str) :
    sectionViolationMsg s ≠ labelViolationMsg p := by
  intro h
  have h0 : (List.drop 8 (sectionViolationMsg s)).head?
      = (List.drop 8 (labelViolationMsg p)).head? := by rw [h]
  rw [show (List.drop 8 (sectionViolationMsg s)).head? = some ('r') from rfl,
      show (List.drop 8 (labelViolationMsg p)).head? = some ('p') from rfl] at h0
  exact absurd h0 (by decide)

theorem violationMaster_nodup (rules : TaskFormatRules)
    (h : rules.requiredSections.Nodup) : (violationMaster rules).Nodup := by
  unfold violationMaster
  refine List.nodup_cons.mpr ⟨?_, ?_⟩
  · intro hmem
    rcases List.mem_append.mp hmem with hm | hm
    · rcases List.mem_map.mp hm with ⟨s, _, hs⟩
      exact lengthMsg_ne_sectionMsg _ s hs.symm
    · rcases List.mem_singleton.mp hm with hs
      exact lengthMsg_ne_labelMsg _ _ hs
  · refine List.Nodup.append (h.map sectionViolationMsg_injective) (by simp) ?_
    intro a ha hb
    rcases List.mem_map.mp ha with ⟨s, _, hs⟩
    rcases List.mem_singleton.mp hb with hl
    exact sectionMsg_ne_labelMsg s _ (hs.symm ▸ hl)

/-- C2 (amended): the violations are always emitted in the fixed order —
they form a sublist of the canonical sequence (length message, then the
configured sections in order, then the label message); the list is
duplicate-free provided the configured required-section list itself has no
duplicates; and the end-to-end scenario with body `"short"` yields exactly
the four expected violations in order. -/
theorem checkFormat_order_and_nodup (rules : TaskFormatRules) (issue : Issue) :
    List.Sublist (checkFormat rules issue) (violationMaster rules)
    ∧ (rules.requiredSections.Nodup → (checkFormat rules issue).Nodup)
    ∧ checkFormat defaultValidatorRules shortIssue
        = [lengthViolationMsg 50, sectionViolationMsg (("Description").toList),
           sectionViolationMsg (("Acceptance Criteria").toList),
           labelViolationMsg (("priority:").toList)] := by
  refine ⟨checkFormat_sublist_master rules issue, ?_, by decide⟩
  intro h
  exact List.Nodup.sublist (checkFormat_sublist_master rules issue)
    (violationMaster_nodup rules h)

/-- C2 counterexample: with a duplicated configured section and a body
missing it, `checkFormat` returns the same violation twice, so the claim's
"no duplicate entries" fails as stated. -/
theorem checkFormat_duplicate_violations :
    ¬ (checkFormat dupSectionRules emptyIssue).Nodup := by decide

/-- Witness for the amended C2: the duplicate-freedom implication
discharged at the scenario input. -/
theorem checkFormat_order_and_nodup_witness :
    (checkFormat defaultValidatorRules shortIssue).Nodup :=
  (checkFormat_order_and_nodup defaultValidatorRules shortIssue).2.1 (by decide)

/-- C8: on an issue where the Schema Checker returns no violations,
`ValidateAndFix` returns `(true, "", nil)` and makes no external call at
all — no text completion, no issue update, no comment. -/
theorem validateAndFix_valid_no_effects (env : VEnv) (rules : TaskFormatRules)
    (issue : Issue) (h : checkFormat rules issue = []) :
    validateAndFix env rules issue = (.ok (true, []), []) := by
  unfold validateAndFix
  rw [if_pos h]

/-- Witness for C8 at a concrete valid issue. -/
theorem validateAndFix_valid_no_effects_witness :
    checkFormat trivialRules emptyIssue = []
    ∧ validateAndFix inertVEnv trivialRules emptyIssue = (.ok (true, []), []) :=
  ⟨by decide, validateAndFix_valid_no_effects inertVEnv trivialRules emptyIssue (by decide)⟩

/-- C9: when the repair completion and the body update both succeed and the
subsequent comment post fails, the failure is swallowed: `ValidateAndFix`
still returns `(false, comment, nil)` with the comment it attempted to post,
and the single persisted update stays in the effect trace (no rollback). -/
theorem validateAndFix_comment_error_swallowed (env : VEnv) (rules : TaskFormatRules)
    (issue : Issue) (raw e : Str)
    (hv : checkFormat rules issue ≠ [])
    (hllm : env.llm (fixPromptOf env rules issue (checkFormat rules issue)) = .ok raw)
    (hupd : env.updateIssue issue.number
        (preserveOriginalWithModifications issue.body (cleanLLMBody raw)
          (checkFormat rules issue)) = .ok ())
    (_hcmt : env.addComment issue.number
        (validatorComment (checkFormat rules issue)) = .error e) :
    validateAndFix env rules issue
      = (.ok (false, validatorComment (checkFormat rules issue)),
         [.llmCall (fixPromptOf env rules issue (checkFormat rules issue)),
          .update issue.number
            (preserveOriginalWithModifications issue.body (cleanLLMBody raw)
              (checkFormat rules issue)),
          .comment issue.number (validatorComment (checkFormat rules issue))])
    ∧ ((validateAndFix env rules issue).2.filter
          (fun ef => match ef with | .update _ _ => true | _ => false)).length = 1 := by
  have hmain : validateAndFix env rules issue
      = (.ok (false, validatorComment (checkFormat rules issue)),
         [.llmCall (fixPromptOf env rules issue (checkFormat rules issue)),
          .update issue.number
            (preserveOriginalWithModifications issue.body (cleanLLMBody raw)
              (checkFormat rules issue)),
          .comment issue.number (validatorComment (checkFormat rules issue))]) := by
    unfold validateAndFix
    rw [if_neg hv]
    simp only [hllm, hupd]
  refine ⟨hmain, ?_⟩
  rw [hmain]
  rfl

/-- Witness for C9 at a concrete invalid issue and an environment whose
comment endpoint fails. -/
theorem validateAndFix_comment_error_swallowed_witness :
    checkFormat minOneRules emptyIssue ≠ []
    ∧ (validateAndFix commentFailVEnv minOneRules emptyIssue).1
        = .ok (false, validatorComment (checkFormat minOneRules emptyIssue)) :=
  ⟨by decide,
   by rw [(validateAndFix_comment_error_swallowed commentFailVEnv minOneRules emptyIssue
        (("ok").toList) (("x").toList) (by decide) rfl rfl rfl).1]⟩

/-!
Occurrence machinery for the Content Merger claims: bounded and unbounded
"no occurrence of `pat` starts here" facts, composed chunk by chunk over the
merged body.
-/

theorem not_prefix_append_of (pat u w : Str)
    (h1 : ¬ pat <+: u) (h2 : ¬ u <+: pat) : ¬ pat <+: (u ++ w) := by
  intro h
  rcases List.prefix_or_prefix_of_prefix h (List.prefix_append u w) with hc | hc
  · exact h1 hc
  · exact h2 hc

theorem noOcc_concrete (pat u : Str)
    (h : ∀ j, j < u.length → ¬ pat <+: u.drop j ∧ ¬ u.drop j <+: pat) :
    ∀ (y : Str) (j : Nat), j < u.length → ¬ pat <+: ((u ++ y).drop j) := by
  intro y j hj
  rw [List.drop_append_of_le_length (le_of_lt hj)]
  exact not_prefix_append_of pat (u.drop j) y (h j hj).1 (h j hj).2

theorem noOcc_boundary (pat u lit : Str)
    (h1 : ¬ pat <:+: u)
    (h2 : ∀ k, k < pat.length → 0 < k →
        ¬ pat.drop k <+: lit ∧ ¬ lit <+: pat.drop k) :
    ∀ (z : Str) (j : Nat), j < u.length → ¬ pat <+: ((u ++ (lit ++ z)).drop j) := by
  intro z j hj hp
  rw [List.drop_append_of_le_length (le_of_lt hj)] at hp
  have hd : 0 < (u.drop j).length := by
    rw [List.length_drop]
    omega
  rcases List.prefix_or_prefix_of_prefix hp
      (List.prefix_append (u.drop j) (lit ++ z)) with hc | hc
  · exact h1 (hc.isInfix.trans (List.drop_suffix j u).isInfix)
  · by_cases hlen : pat.length ≤ (u.drop j).length
    · have heq : u.drop j = pat :=
        List.IsPrefix.eq_of_length hc
          (le_antisymm (List.IsPrefix.length_le hc) hlen)
      refine h1 ?_
      rw [← heq]
      exact (List.drop_suffix j u).isInfix
    · push_neg at hlen
      rcases hc with ⟨s, hs⟩
      rcases hp with ⟨t, ht⟩
      have hsdrop : pat.drop (u.drop j).length = s := by
        rw [← hs]
        exact List.drop_left _ _
      have hst : s ++ t = lit ++ z := by
        rw [← hs, List.append_assoc] at ht
        exact List.append_cancel_left ht
      have hbound := h2 (u.drop j).length hlen hd
      exact not_prefix_append_of (pat.drop (u.drop j).length) lit z
        hbound.1 hbound.2 (by rw [hsdrop]; exact ⟨t, hst⟩)

theorem noOccFull_append (pat u y : Str)
    (hu : ∀ j, j < u.length → ¬ pat <+: ((u ++ y).drop j))
    (hy : ∀ j, ¬ pat <+: (y.drop j)) :
    ∀ j, ¬ pat <+: ((u ++ y).drop j) := by
  intro j
  by_cases hj : j < u.length
  · exact hu j hj
  · push_neg at hj
    have hdrop : (u ++ y).drop j = y.drop (j - u.length) := by
      have h2 : j = u.length + (j - u.length) := by omega
      conv_lhs => rw [h2]
      rw [List.drop_append]
    rw [hdrop]
    exact hy (j - u.length)

theorem noOccFull_concrete (pat u : Str) (hne : pat ≠ [])
    (h : ∀ j, j < u.length → ¬ pat <+: u.drop j) :
    ∀ j, ¬ pat <+: u.drop j := by
  intro j
  by_cases hj : j < u.length
  · exact h j hj
  · push_neg at hj
    rw [List.drop_eq_nil_of_le hj]
    intro hp
    exact hne (List.prefix_nil.mp hp)

theorem noOcc_append (pat u v y : Str)
    (hu : ∀ j, j < u.length → ¬ pat <+: ((u ++ (v ++ y)).drop j))
    (hv : ∀ j, j < v.length → ¬ pat <+: ((v ++ y).drop j)) :
    ∀ j, j < (u ++ v).length → ¬ pat <+: (((u ++ v) ++ y).drop j) := by
  intro j hj
  rw [List.append_assoc]
  by_cases hju : j < u.length
  · exact hu j hju
  · push_neg at hju
    have hjv : j - u.length < v.length := by
      rw [List.length_append] at hj; omega
    have hdrop : (u ++ (v ++ y)).drop j = (v ++ y).drop (j - u.length) := by
      have h2 : j = u.length + (j - u.length) := by omega
      conv_lhs => rw [h2]
      rw [List.drop_append]
    rw [hdrop]
    exact hv _ hjv

theorem countOccur_eq_zero (pat s : Str)
    (h : ∀ j, ¬ pat <+: s.drop j) : countOccur pat s = 0 := by
  induction s with
  | nil =>
    have h0 : ¬ pat.isPrefixOf ([] : Str) = true := by
      intro hp
      exact h 0 (List.isPrefixOf_iff_prefix.mp hp)
    unfold countOccur
    rw [if_neg h0]
  | cons c rest ih =>
    have h0 : ¬ pat.isPrefixOf (c :: rest) = true := by
      intro hp
      exact h 0 (List.isPrefixOf_iff_prefix.mp hp)
    have hrest : ∀ j, ¬ pat <+: rest.drop j := by
      intro j hp
      exact h (j + 1) (by simpa using hp)
    unfold countOccur
    rw [if_neg h0, ih hrest]

theorem countOccur_eq_one (pat s : Str) (hne : pat ≠ [])
    (h0 : pat <+: s) (h1 : ∀ j, ¬ pat <+: ((s.drop 1).drop j)) :
    countOccur pat s = 1 := by
  cases s with
  | nil => exact absurd (List.prefix_nil.mp h0) hne
  | cons c rest =>
    unfold countOccur
    rw [if_pos (List.isPrefixOf_iff_prefix.mpr h0),
        countOccur_eq_zero pat rest (by simpa using h1)]

theorem strIndex_none_of_not_contained (s pat : Str) (h : ¬ pat <:+: s) :
    strIndex s pat = none := by
  rw [strIndex_eq_none_iff]
  intro n hp
  exact h (hp.isInfix.trans (List.drop_suffix n s).isInfix)

theorem strIndex_of_prefix (s pat : Str) (h : pat <+: s) : strIndex s pat = some 0 := by
  cases s with
  | nil =>
    unfold strIndex strIndexAux
    rw [if_pos (List.isPrefixOf_iff_prefix.mpr h)]
  | cons c rest =>
    unfold strIndex strIndexAux
    rw [if_pos (List.isPrefixOf_iff_prefix.mpr h)]

theorem strIndexAux_eq_of (pat y : Str) :
    ∀ (x : Str) (i : Nat),
      (∀ j, j < x.length → ¬ pat <+: ((x ++ y).drop j)) →
      pat <+: y →
      strIndexAux pat (x ++ y) i = some (i + x.length) := by
  intro x
  induction x with
  | nil =>
    intro i _ hy
    rw [List.nil_append]
    cases y with
    | nil =>
      unfold strIndexAux
      rw [if_pos (List.isPrefixOf_iff_prefix.mpr hy)]
      simp
    | cons c rest =>
      unfold strIndexAux
      rw [if_pos (List.isPrefixOf_iff_prefix.mpr hy)]
      simp
  | cons c xt ih =>
    intro i hx hy
    have h0 : ¬ pat.isPrefixOf (c :: (xt ++ y)) = true := by
      intro hp
      have := List.isPrefixOf_iff_prefix.mp hp
      exact hx 0 (by simp) (by simpa using this)
    have hx' : ∀ j, j < xt.length → ¬ pat <+: ((xt ++ y).drop j) := by
      intro j hj hp
      refine hx (j + 1) (by simp; omega) ?_
      simpa using hp
    show strIndexAux pat (c :: (xt ++ y)) i = _
    unfold strIndexAux
    rw [if_neg h0, ih (i + 1) hx' hy]
    congr 1
    simp
    omega

/-- C4 (amended): with a malformed notice (start marker present, no end
marker after it), the notice-removal step leaves the body completely
unchanged, and the merge therefore wraps the body verbatim as the preserved
original (it does not return the input unchanged). -/
theorem removeNotice_malformed_unchanged (body fixedBody : Str) (violations : List Str)
    (i : Nat)
    (h1 : strIndex body agentNoticeStart = some i)
    (h2 : strIndex (body.drop i) agentNoticeEnd = none) :
    removeExistingAgentNotice body agentNoticeStart agentNoticeEnd = body
    ∧ preserveOriginalWithModifications body fixedBody violations
        = mergeFormat fixedBody violations body := by
  have hr : removeExistingAgentNotice body agentNoticeStart agentNoticeEnd = body := by
    unfold removeExistingAgentNotice
    rw [h1]
    dsimp only
    rw [h2]
  refine ⟨hr, ?_⟩
  unfold preserveOriginalWithModifications
  rw [hr]

/-- C4 counterexample: on a body that is exactly a bare start marker (no end
marker), the merge does not return the input unchanged — it wraps it. -/
theorem merge_malformed_not_unchanged :
    preserveOriginalWithModifications agentNoticeStart (("F").toList) []
      ≠ agentNoticeStart := by decide

/-- Witness for the amended C4 at the bare-start-marker body. -/
theorem removeNotice_malformed_unchanged_witness :
    strIndex agentNoticeStart agentNoticeStart = some 0
    ∧ strIndex (agentNoticeStart.drop 0) agentNoticeEnd = none
    ∧ removeExistingAgentNotice agentNoticeStart agentNoticeStart agentNoticeEnd
        = agentNoticeStart :=
  ⟨by decide, by decide,
   (removeNotice_malformed_unchanged agentNoticeStart (("F").toList) [] 0
     (by decide) (by decide)).1⟩

set_option maxRecDepth 40000

theorem cchkE_start : ∀ j, j < agentNoticeStart.length →
    ¬ agentNoticeEnd <+: agentNoticeStart.drop j
    ∧ ¬ agentNoticeStart.drop j <+: agentNoticeEnd := by decide

theorem cchkE_nh : ∀ j, j < noticeHeaderLit.length →
    ¬ agentNoticeEnd <+: noticeHeaderLit.drop j
    ∧ ¬ noticeHeaderLit.drop j <+: agentNoticeEnd := by decide

theorem cchkE_ncl : ∀ j, j < noticeCloseLit.length →
    ¬ agentNoticeEnd <+: noticeCloseLit.drop j
    ∧ ¬ noticeCloseLit.drop j <+: agentNoticeEnd := by decide

theorem cchkS_sd1 : ∀ j, j < (agentNoticeStart.drop 1).length →
    ¬ agentNoticeStart <+: (agentNoticeStart.drop 1).drop j
    ∧ ¬ (agentNoticeStart.drop 1).drop j <+: agentNoticeStart := by decide

theorem cchkS_nh : ∀ j, j < noticeHeaderLit.length →
    ¬ agentNoticeStart <+: noticeHeaderLit.drop j
    ∧ ¬ noticeHeaderLit.drop j <+: agentNoticeStart := by decide

theorem cchkS_ncl : ∀ j, j < noticeCloseLit.length →
    ¬ agentNoticeStart <+: noticeCloseLit.drop j
    ∧ ¬ noticeCloseLit.drop j <+: agentNoticeStart := by decide

theorem cchkS_end : ∀ j, j < agentNoticeEnd.length →
    ¬ agentNoticeStart <+: agentNoticeEnd.drop j
    ∧ ¬ agentNoticeEnd.drop j <+: agentNoticeStart := by decide

theorem cchkS_anl : ∀ j, j < afterNoticeLit.length →
    ¬ agentNoticeStart <+: afterNoticeLit.drop j
    ∧ ¬ afterNoticeLit.drop j <+: agentNoticeStart := by decide

theorem cchkS_ph : ∀ j, j < preservedHeaderLit.length →
    ¬ agentNoticeStart <+: preservedHeaderLit.drop j
    ∧ ¬ preservedHeaderLit.drop j <+: agentNoticeStart := by decide

theorem cchkS_dashes : ∀ j, j < (("---\n\n").toList).length →
    ¬ agentNoticeStart <+: (("---\n\n").toList).drop j
    ∧ ¬ (("---\n\n").toList).drop j <+: agentNoticeStart := by decide

theorem cchkS_pcl : ∀ j, j < preservedCloseLit.length →
    ¬ agentNoticeStart <+: preservedCloseLit.drop j
    ∧ ¬ preservedCloseLit.drop j <+: agentNoticeStart := by decide

theorem bdryE_ncl : ∀ k, k < agentNoticeEnd.length → 0 < k →
    ¬ agentNoticeEnd.drop k <+: noticeCloseLit
    ∧ ¬ noticeCloseLit <+: agentNoticeEnd.drop k := by decide

theorem bdryS_ncl : ∀ k, k < agentNoticeStart.length → 0 < k →
    ¬ agentNoticeStart.drop k <+: noticeCloseLit
    ∧ ¬ noticeCloseLit <+: agentNoticeStart.drop k := by decide

theorem bdryS_ph : ∀ k, k < agentNoticeStart.length → 0 < k →
    ¬ agentNoticeStart.drop k <+: preservedHeaderLit
    ∧ ¬ preservedHeaderLit <+: agentNoticeStart.drop k := by decide

theorem bdryS_pcl : ∀ k, k < agentNoticeStart.length → 0 < k →
    ¬ agentNoticeStart.drop k <+: preservedCloseLit
    ∧ ¬ preservedCloseLit <+: agentNoticeStart.drop k := by decide

theorem removeNotice_no_marker (s : Str) (h : ¬ agentNoticeStart <:+: s) :
    removeExistingAgentNotice s agentNoticeStart agentNoticeEnd = s := by
  unfold removeExistingAgentNotice
  rw [strIndex_none_of_not_contained s agentNoticeStart h]

theorem removeNotice_of_shape (m x z : Str)
    (hm : m = x ++ (agentNoticeEnd ++ z))
    (hpre : agentNoticeStart <+: m)
    (hno : ∀ j, j < x.length → ¬ agentNoticeEnd <+: ((x ++ (agentNoticeEnd ++ z)).drop j)) :
    removeExistingAgentNotice m agentNoticeStart agentNoticeEnd = trimLeftNl z := by
  have hstart : strIndex m agentNoticeStart = some 0 := strIndex_of_prefix m _ hpre
  have hidx : strIndex (m.drop 0) agentNoticeEnd = some x.length := by
    rw [List.drop_zero, hm]
    show strIndexAux agentNoticeEnd (x ++ (agentNoticeEnd ++ z)) 0 = some x.length
    rw [strIndexAux_eq_of agentNoticeEnd (agentNoticeEnd ++ z) x 0 hno
        (List.prefix_append _ _)]
    rw [Nat.zero_add]
  have hdrop : m.drop (x.length + 0 + agentNoticeEnd.length) = z := by
    rw [hm]
    rw [show x.length + 0 + agentNoticeEnd.length = x.length + agentNoticeEnd.length
        from by omega]
    rw [show x ++ (agentNoticeEnd ++ z) = (x ++ agentNoticeEnd) ++ z
        from (List.append_assoc _ _ _).symm]
    rw [show x.length + agentNoticeEnd.length = (x ++ agentNoticeEnd).length
        from (List.length_append _ _).symm]
    exact List.drop_left _ _
  unfold removeExistingAgentNotice
  rw [hstart]
  dsimp only
  rw [hidx]
  dsimp only
  rw [show m.take 0 = ([] : Str) from rfl]
  rw [show trimRightNl ([] : Str) = [] from rfl]
  rw [if_pos rfl, hdrop]

theorem removeNotice_mergeFormat (fb co : Str) (vs : List Str)
    (hvs : ¬ agentNoticeEnd <:+: violationsBullets vs) :
    removeExistingAgentNotice (mergeFormat fb vs co) agentNoticeStart agentNoticeEnd
      = ("---\n\n").toList ++ fb ++ preservedHeaderLit ++ co ++ preservedCloseLit := by
  have hm : mergeFormat fb vs co
      = (agentNoticeStart ++ (noticeHeaderLit ++ (violationsBullets vs ++ noticeCloseLit)))
        ++ (agentNoticeEnd
            ++ (afterNoticeLit
                ++ (fb ++ (preservedHeaderLit ++ (co ++ preservedCloseLit))))) := by
    unfold mergeFormat
    simp [List.append_assoc]
  have hpre : agentNoticeStart <+: mergeFormat fb vs co := by
    rw [hm]
    exact (List.prefix_append _ _).trans (List.prefix_append _ _)
  have hno : ∀ j,
      j < (agentNoticeStart
            ++ (noticeHeaderLit ++ (violationsBullets vs ++ noticeCloseLit))).length →
      ¬ agentNoticeEnd <+:
        (((agentNoticeStart
            ++ (noticeHeaderLit ++ (violationsBullets vs ++ noticeCloseLit)))
          ++ (agentNoticeEnd
              ++ (afterNoticeLit
                  ++ (fb ++ (preservedHeaderLit ++ (co ++ preservedCloseLit)))))).drop j) := by
    refine noOcc_append _ _ _ _ (noOcc_concrete _ _ cchkE_start _) ?_
    refine noOcc_append _ _ _ _ (noOcc_concrete _ _ cchkE_nh _) ?_
    refine noOcc_append _ _ _ _
      (noOcc_boundary agentNoticeEnd (violationsBullets vs) noticeCloseLit
        hvs bdryE_ncl _) ?_
    intro j hj
    exact noOcc_concrete _ _ cchkE_ncl _ j hj
  have hres := removeNotice_of_shape (mergeFormat fb vs co)
    (agentNoticeStart ++ (noticeHeaderLit ++ (violationsBullets vs ++ noticeCloseLit)))
    (afterNoticeLit ++ (fb ++ (preservedHeaderLit ++ (co ++ preservedCloseLit))))
    hm hpre hno
  rw [hres]
  show ("---\n\n").toList ++ (fb ++ (preservedHeaderLit ++ (co ++ preservedCloseLit))) = _
  simp [List.append_assoc]

theorem countOccur_merge_one (m R : Str)
    (hm : m = agentNoticeStart ++ R)
    (hfull : ∀ j, ¬ agentNoticeStart <+: ((agentNoticeStart.drop 1 ++ R).drop j)) :
    countOccur agentNoticeStart m = 1 := by
  refine countOccur_eq_one _ _ (by decide) ?_ ?_
  · rw [hm]
    exact List.prefix_append _ _
  · intro j
    have hdrop1 : m.drop 1 = agentNoticeStart.drop 1 ++ R := by
      rw [hm, List.drop_append_of_le_length (by decide)]
    rw [hdrop1]
    exact hfull j

/-- C3 (amended): for marker-free inputs — the notice markers do not occur as
substrings of `orig`, the fixed bodies, or the rendered violation lists —
re-merging an already-merged body leaves exactly one notice block (the most
recent, never nested); but the preserved-original section of the second merge
is the notice-stripped first merge output — which still carries the first
fixed body and a wrapped copy of `orig` — rather than `orig` itself; `orig`
survives only as an embedded substring. -/
theorem merge_repeat_single_notice (o a b : Str) (va vb : List Str)
    (ho : ¬ agentNoticeStart <:+: o) (ha : ¬ agentNoticeStart <:+: a)
    (hb : ¬ agentNoticeStart <:+: b)
    (hva : ¬ agentNoticeEnd <:+: violationsBullets va)
    (hvb : ¬ agentNoticeStart <:+: violationsBullets vb) :
    countOccur agentNoticeStart
      (preserveOriginalWithModifications
        (preserveOriginalWithModifications o a va) b vb) = 1
    ∧ removeExistingAgentNotice (preserveOriginalWithModifications o a va)
        agentNoticeStart agentNoticeEnd
      = ("---\n\n").toList ++ a ++ preservedHeaderLit ++ o ++ preservedCloseLit
    ∧ o <:+: removeExistingAgentNotice (preserveOriginalWithModifications o a va)
        agentNoticeStart agentNoticeEnd := by
  have hm1 : preserveOriginalWithModifications o a va = mergeFormat a va o := by
    unfold preserveOriginalWithModifications
    rw [removeNotice_no_marker o ho]
  have hconj2 : removeExistingAgentNotice (preserveOriginalWithModifications o a va)
      agentNoticeStart agentNoticeEnd
      = ("---\n\n").toList ++ a ++ preservedHeaderLit ++ o ++ preservedCloseLit := by
    rw [hm1]
    exact removeNotice_mergeFormat a o va hva
  have hm2 : preserveOriginalWithModifications
        (preserveOriginalWithModifications o a va) b vb
      = agentNoticeStart
        ++ (noticeHeaderLit
          ++ (violationsBullets vb
            ++ (noticeCloseLit
              ++ (agentNoticeEnd
                ++ (afterNoticeLit
                  ++ (b
                    ++ (preservedHeaderLit
                      ++ (("---\n\n").toList
                        ++ (a
                          ++ (preservedHeaderLit
                            ++ (o
                              ++ (preservedCloseLit ++ preservedCloseLit)))))))))))) := by
    unfold preserveOriginalWithModifications
    rw [show removeExistingAgentNotice
        (mergeFormat a va (removeExistingAgentNotice o agentNoticeStart agentNoticeEnd))
        agentNoticeStart agentNoticeEnd
        = ("---\n\n").toList ++ a ++ preservedHeaderLit ++ o ++ preservedCloseLit from by
      rw [removeNotice_no_marker o ho]
      exact removeNotice_mergeFormat a o va hva]
    unfold mergeFormat
    simp [List.append_assoc]
  refine ⟨?_, hconj2, ?_⟩
  · refine countOccur_merge_one _ _ hm2 ?_
    refine noOccFull_append _ _ _ (noOcc_concrete _ _ cchkS_sd1 _) ?_
    refine noOccFull_append _ _ _ (noOcc_concrete _ _ cchkS_nh _) ?_
    refine noOccFull_append _ _ _
      (noOcc_boundary agentNoticeStart (violationsBullets vb) noticeCloseLit
        hvb bdryS_ncl _) ?_
    refine noOccFull_append _ _ _ (noOcc_concrete _ _ cchkS_ncl _) ?_
    refine noOccFull_append _ _ _ (noOcc_concrete _ _ cchkS_end _) ?_
    refine noOccFull_append _ _ _ (noOcc_concrete _ _ cchkS_anl _) ?_
    refine noOccFull_append _ _ _
      (noOcc_boundary agentNoticeStart b preservedHeaderLit hb bdryS_ph _) ?_
    refine noOccFull_append _ _ _ (noOcc_concrete _ _ cchkS_ph _) ?_
    refine noOccFull_append _ _ _ (noOcc_concrete _ _ cchkS_dashes _) ?_
    refine noOccFull_append _ _ _
      (noOcc_boundary agentNoticeStart a preservedHeaderLit ha bdryS_ph _) ?_
    refine noOccFull_append _ _ _ (noOcc_concrete _ _ cchkS_ph _) ?_
    refine noOccFull_append _ _ _
      (noOcc_boundary agentNoticeStart o preservedCloseLit ho bdryS_pcl _) ?_
    refine noOccFull_append _ _ _ (noOcc_concrete _ _ cchkS_pcl _) ?_
    exact noOccFull_concrete _ _ (by decide) (fun j hj => (cchkS_pcl j hj).1)
  · rw [hconj2]
    exact ⟨("---\n\n").toList ++ a ++ preservedHeaderLit, preservedCloseLit,
      by simp [List.append_assoc]⟩

/-- C3 counterexample: with `orig = "O"`, `fixA = "A"`, `fixB = "B"` and empty
violation lists, the doubly merged body differs from the body the merger
would produce were its preserved-original section equal to `orig` — the
preserved section has been wrapped again, so the claim fails as stated. -/
theorem merge_not_idempotent_counterexample :
    preserveOriginalWithModifications
        (preserveOriginalWithModifications (("O").toList) (("A").toList) [])
        (("B").toList) []
      ≠ mergeFormat (("B").toList) [] (("O").toList) := by decide

/-- Witness for the amended C3 at concrete marker-free inputs that do contain
angle brackets and markup (`"a < b"`, `"<b>A</b>"`, `"B < C"`) and a
non-empty first violation list. -/
theorem merge_repeat_single_notice_witness :
    (¬ agentNoticeStart <:+: (("a < b").toList)
      ∧ ¬ agentNoticeStart <:+: (("<b>A</b>").toList)
      ∧ ¬ agentNoticeStart <:+: (("B < C").toList)
      ∧ ¬ agentNoticeEnd <:+: violationsBullets [lengthViolationMsg 50])
    ∧ countOccur agentNoticeStart
        (preserveOriginalWithModifications
          (preserveOriginalWithModifications (("a < b").toList) (("<b>A</b>").toList)
            [lengthViolationMsg 50])
          (("B < C").toList) []) = 1 :=
  ⟨⟨by decide, by decide, by decide, by decide⟩,
   (merge_repeat_single_notice (("a < b").toList) (("<b>A</b>").toList)
     (("B < C").toList) [lengthViolationMsg 50] []
     (by decide) (by decide) (by decide) (by decide) (by decide)).1⟩

/-- C7: when the generate phase's completion call succeeds with non-empty
post-processed output, `executeLLMAction` stores that text in its result map
under both the `summary` and the `content` key. -/
theorem executeLLMAction_dual_keys (env : GEnv) (agent : PluginAgent) (issue : Issue)
    (raw : Str)
    (hllm : env.llm (llmPromptOf env agent issue) = .ok raw)
    (_hne : postProcessSummary raw ≠ []) :
    mapGet (executeLLMAction env agent issue).1 (("summary").toList)
        = some (.vstr (postProcessSummary raw))
    ∧ mapGet (executeLLMAction env agent issue).1 (("content").toList)
        = some (.vstr (postProcessSummary raw)) := by
  unfold executeLLMAction
  simp only [hllm]
  exact ⟨rfl, rfl⟩

/-- Witness for C7 at a concrete environment returning `"Result"`. -/
theorem executeLLMAction_dual_keys_witness :
    postProcessSummary (("Result").toList) ≠ []
    ∧ mapGet (executeLLMAction llmOkGEnv keywordAgent emptyIssue).1 (("summary").toList)
        = some (.vstr (postProcessSummary (("Result").toList))) :=
  ⟨by decide,
   (executeLLMAction_dual_keys llmOkGEnv keywordAgent emptyIssue (("Result").toList)
     rfl (by decide)).1⟩

theorem doGenericAction_no_issue (env : GEnv) (agent : PluginAgent) (n : Int)
    (action : Str) (st : GState) :
    doGenericAction env agent n false action st = .inl st := by
  unfold doGenericAction
  simp

theorem genericLoop_no_issue (env : GEnv) (agent : PluginAgent) (n : Int) :
    ∀ (actions : List Str) (st : GState),
      genericLoop env agent n false actions st
        = (.ok (if (mapGet st.result (("message").toList)).isNone then
              mapSet st.result (("message").toList) (.vstr (genericExecutedMsg agent))
            else st.result), st.trace) := by
  intro actions
  induction actions with
  | nil => intro st; rfl
  | cons a rest ih =>
    intro st
    unfold genericLoop
    rw [doGenericAction_no_issue]
    exact ih st

/-- C10: when the params carry no positive issue number (under `issue_number`
or `issue`, as int or float64), `executeGeneric` performs no external call at
all and returns the basic result: status `executed` and the generic
"executed with N actions" message. -/
theorem executeGeneric_no_issue (env : GEnv) (agent : PluginAgent)
    (params : List (Str × GoVal))
    (h : (extractIssueNumber params).2 = false) :
    executeGeneric env agent params
      = (.ok [((("agent").toList), .vstr agent.name),
              ((("type").toList), .vstr agent.ptype),
              ((("status").toList), .vstr (("executed").toList)),
              ((("actions").toList), .vstrList agent.actions),
              ((("message").toList), .vstr (genericExecutedMsg agent))], []) := by
  unfold executeGeneric
  rcases hex : extractIssueNumber params with ⟨n, b⟩
  rw [hex] at h
  simp only at h
  subst h
  simp only
  rw [genericLoop_no_issue]
  rfl

/-- Witness for C10: an agent whose phrases match all three predicate
families, with a zero issue number in the params. -/
theorem executeGeneric_no_issue_witness :
    (extractIssueNumber zeroIssueParams).2 = false
    ∧ executeGeneric inertGEnv keywordAgent zeroIssueParams
      = (.ok [((("agent").toList), .vstr keywordAgent.name),
              ((("type").toList), .vstr keywordAgent.ptype),
              ((("status").toList), .vstr (("executed").toList)),
              ((("actions").toList), .vstrList keywordAgent.actions),
              ((("message").toList), .vstr (genericExecutedMsg keywordAgent))], []) :=
  ⟨by decide, executeGeneric_no_issue inertGEnv keywordAgent zeroIssueParams (by decide)⟩

theorem doGenericAction_noMatch (env : GEnv) (agent : PluginAgent) (n : Int)
    (hasIssue : Bool) (action : Str) (st : GState)
    (h1 : isLengthGateAction action = false)
    (h2 : isGenerateAction action = false)
    (h3 : isAddCommentAction action = false) :
    doGenericAction env agent n hasIssue action st = .inl st := by
  unfold doGenericAction
  simp [h1, h2, h3]

theorem genericLoop_cons (env : GEnv) (agent : PluginAgent) (n : Int)
    (hasIssue : Bool) (a : Str) (rest : List Str) (st : GState) :
    genericLoop env agent n hasIssue (a :: rest) st
      = (match doGenericAction env agent n hasIssue a st with
         | .inl st' => genericLoop env agent n hasIssue rest st'
         | .inr out => out) := rfl

theorem genericLoop_skip_pre (env : GEnv) (agent : PluginAgent) (n : Int)
    (hasIssue : Bool) :
    ∀ (pre rest : List Str) (st : GState),
      (∀ x ∈ pre, isLengthGateAction x = false ∧ isGenerateAction x = false
        ∧ isAddCommentAction x = false) →
      genericLoop env agent n hasIssue (pre ++ rest) st
        = genericLoop env agent n hasIssue rest st := by
  intro pre
  induction pre with
  | nil => intro rest st _; rfl
  | cons a t ih =>
    intro rest st hpre
    have ha := hpre a (by simp)
    show genericLoop env agent n hasIssue (a :: (t ++ rest)) st = _
    rw [genericLoop_cons,
        doGenericAction_noMatch env agent n hasIssue a st ha.1 ha.2.1 ha.2.2]
    exact ih rest st (fun x hx => hpre x (by simp [hx]))

/-- C6 (amended): when the first action phrase that matches any predicate
family is a length-gate phrase and the fetched issue's body is shorter than
the configured minimum, the call short-circuits at that phrase: it returns
status `skipped` with the explanatory message, no action after the gate
executes, and the only external call of the whole run is the single issue
fetch — in particular zero completion calls and zero comment posts.
(Generate or comment phrases placed before the gate phrase do execute first;
see the counterexample.) -/
theorem lengthGate_skips_short (env : GEnv) (agent : PluginAgent)
    (params : List (Str × GoVal)) (n : Int) (issue : Issue)
    (pre post : List Str) (gateAction : Str)
    (hacts : agent.actions = pre ++ gateAction :: post)
    (hgate : isLengthGateAction gateAction = true)
    (hpre : ∀ x ∈ pre, isLengthGateAction x = false ∧ isGenerateAction x = false
        ∧ isAddCommentAction x = false)
    (hex : extractIssueNumber params = (n, true))
    (hget : env.getIssue n = .ok issue)
    (hlen : (issue.body.length : Int) < minLengthFor agent) :
    (executeGeneric env agent params).2 = [Effect.getIssue n]
    ∧ ∃ r, (executeGeneric env agent params).1 = .ok r
        ∧ mapGet r (("status").toList) = some (.vstr (("skipped").toList))
        ∧ mapGet r (("message").toList)
            = some (.vstr (tooShortMsg issue.body.length (minLengthFor agent))) := by
  have hmain : executeGeneric env agent params
      = (.ok (mapSet (mapSet
            (mapSet [((("agent").toList), .vstr agent.name),
                     ((("type").toList), .vstr agent.ptype),
                     ((("status").toList), .vstr (("executed").toList)),
                     ((("actions").toList), .vstrList agent.actions)]
              (("issue").toList) (.vint n))
            (("status").toList) (.vstr (("skipped").toList)))
            (("message").toList)
            (.vstr (tooShortMsg issue.body.length (minLengthFor agent)))),
         [Effect.getIssue n]) := by
    unfold executeGeneric
    rw [hex]
    simp only
    rw [hacts, genericLoop_skip_pre env agent n true pre (gateAction :: post) _ hpre]
    rw [genericLoop_cons]
    unfold doGenericAction
    rw [hgate]
    simp only [Bool.true_and, if_pos]
    unfold ensureIssue
    simp only
    rw [hget]
    simp only
    rw [if_pos hlen]
    rfl
  refine ⟨by rw [hmain], ?_⟩
  refine ⟨_, by rw [hmain], ?_, ?_⟩
  · rfl
  · rfl

/-- C6 counterexample: with a generate phrase before the length-gate phrase
and a 10-character body against a configured minimum of 50, the call does
return status `skipped`, but a completion call has already been performed —
so the claim's "zero text-completion calls" fails as stated. -/
theorem lengthGate_after_generate_counterexample :
    (∃ r, (executeGeneric shortIssueGEnv genFirstAgent issue7Params).1 = .ok r
        ∧ mapGet r (("status").toList) = some (.vstr (("skipped").toList)))
    ∧ ((executeGeneric shortIssueGEnv genFirstAgent issue7Params).2.filter
        (fun ef => match ef with | Effect.llmCall _ => true | _ => false)).length
      = 1 := by
  exact ⟨⟨_, rfl, rfl⟩, rfl⟩

/-- Witness for the amended C6: a gate-only agent over the 10-character body
with configured minimum 50 performs exactly the one issue fetch. -/
theorem lengthGate_skips_short_witness :
    isLengthGateAction (("Check if task body is long enough").toList) = true
    ∧ (executeGeneric shortIssueGEnv gateOnlyAgent issue7Params).2
        = [Effect.getIssue 7] :=
  ⟨by decide,
   (lengthGate_skips_short shortIssueGEnv gateOnlyAgent issue7Params 7 shortBodyIssue
     [] [] (("Check if task body is long enough").toList) rfl (by decide)
     (by intro x hx; exact absurd hx (List.not_mem_nil x)) (by decide) rfl
     (by decide)).1⟩

theorem validateAndFix_isOk (env : VEnv) (rules : TaskFormatRules) (issue : Issue)
    (hllm : ∀ p, ∃ r, env.llm p = .ok r)
    (hupd : ∀ n b, env.updateIssue n b = .ok ()) :
    ∃ v c, (validateAndFix env rules issue).1 = .ok (v, c) := by
  unfold validateAndFix
  by_cases h : checkFormat rules issue = []
  · rw [if_pos h]
    exact ⟨true, [], rfl⟩
  · rw [if_neg h]
    obtain ⟨r, hr⟩ := hllm (fixPromptOf env rules issue (checkFormat rules issue))
    simp only [hr, hupd]
    exact ⟨false, validatorComment (checkFormat rules issue), rfl⟩

theorem length_filter_split (l : List Issue) (p : Issue → Bool) :
    (l.filter (fun i => !p i)).length + (l.filter p).length = l.length := by
  induction l with
  | nil => rfl
  | cons a t ih =>
    cases h : p a with
    | true => simp [List.filter_cons, h]; omega
    | false => simp [List.filter_cons, h]; omega

theorem validatorLoop_cons (env : VEnv) (al : Int → Except Str Unit) (i : Issue)
    (rest : List Issue) (st : VBatchState) :
    validatorLoop env al (i :: rest) st
      = (match (validateAndFix env defaultValidatorRules i).1 with
         | .error e => validatorLoop env al rest
             { world := st.world, validatedCount := st.validatedCount,
               fixedCount := st.fixedCount,
               errors := st.errors ++ [issueErrMsg i.number e],
               validatedIssues := st.validatedIssues,
               calls := st.calls ++ [i] }
         | .ok r => validatorLoop env al rest
             { world := (match al i.number with
                         | .ok _ => addLabelW st.world i.number validatorSentinel
                         | .error _ => st.world),
               validatedCount := st.validatedCount + 1,
               fixedCount := (if r.1 then st.fixedCount else st.fixedCount + 1),
               errors := st.errors,
               validatedIssues := st.validatedIssues
                 ++ [(i.number, i.title, r.1, !r.1, r.2)],
               calls := st.calls ++ [i] }) := rfl

theorem validatorLoop_stats (env : VEnv) (al : Int → Except Str Unit)
    (hok : ∀ i : Issue, ∃ v c,
      (validateAndFix env defaultValidatorRules i).1 = .ok (v, c)) :
    ∀ (pending : List Issue) (st : VBatchState),
      (validatorLoop env al pending st).calls = st.calls ++ pending
      ∧ (validatorLoop env al pending st).validatedCount
          = st.validatedCount + pending.length
      ∧ (validatorLoop env al pending st).errors = st.errors := by
  intro pending
  induction pending with
  | nil =>
    intro st
    exact ⟨(List.append_nil st.calls).symm, rfl, rfl⟩
  | cons i rest ih =>
    intro st
    obtain ⟨v, c, hvc⟩ := hok i
    rw [validatorLoop_cons, hvc]
    rcases ih _ with ⟨h1, h2, h3⟩
    refine ⟨?_, ?_, ?_⟩
    · rw [h1]
      simp
    · rw [h2]
      simp only [List.length_cons]
      omega
    · rw [h3]

theorem hasValidatorLabel_append : ∀ (j : Issue),
    hasValidatorLabel { j with labels := j.labels ++ [validatorSentinel] } = true := by
  intro j
  simp [hasValidatorLabel]

theorem hasValidatorLabel_of_mem (j : Issue) (h : validatorSentinel ∈ j.labels) :
    hasValidatorLabel j = true := by
  unfold hasValidatorLabel
  exact List.any_eq_true.mpr ⟨validatorSentinel, h, by simp⟩

theorem validatorLoop_labels (env : VEnv) (al : Int → Except Str Unit)
    (hok : ∀ i : Issue, ∃ v c,
      (validateAndFix env defaultValidatorRules i).1 = .ok (v, c))
    (hal : ∀ n, al n = .ok ()) :
    ∀ (pending : List Issue) (st : VBatchState),
      (∀ j ∈ st.world.issues, j.state = ("open").toList →
        hasValidatorLabel j = true ∨ ∃ i ∈ pending, i.number = j.number) →
      ∀ j ∈ (validatorLoop env al pending st).world.issues,
        j.state = ("open").toList → hasValidatorLabel j = true := by
  intro pending
  induction pending with
  | nil =>
    intro st hinv j hj hopen
    rcases hinv j hj hopen with h | ⟨i, hi, _⟩
    · exact h
    · exact absurd hi (List.not_mem_nil i)
  | cons i rest ih =>
    intro st hinv
    obtain ⟨v, c, hvc⟩ := hok i
    rw [validatorLoop_cons, hvc, hal i.number]
    refine ih _ ?_
    intro j hj hopen
    have hj' : j ∈ (addLabelW st.world i.number validatorSentinel).issues := hj
    rw [show (addLabelW st.world i.number validatorSentinel).issues
        = st.world.issues.map (fun j0 =>
            if j0.number = i.number then
              (if validatorSentinel ∈ j0.labels then j0
               else { j0 with labels := j0.labels ++ [validatorSentinel] })
            else j0) from rfl] at hj'
    rcases List.mem_map.mp hj' with ⟨j0, hj0, hj0eq⟩
    by_cases hnum : j0.number = i.number
    · rw [if_pos hnum] at hj0eq
      by_cases hl : validatorSentinel ∈ j0.labels
      · rw [if_pos hl] at hj0eq
        exact Or.inl (hj0eq ▸ hasValidatorLabel_of_mem j0 hl)
      · rw [if_neg hl] at hj0eq
        exact Or.inl (hj0eq ▸ hasValidatorLabel_append j0)
    · rw [if_neg hnum] at hj0eq
      subst hj0eq
      rcases hinv j0 hj0 hopen with h | ⟨i0, hi0, heq⟩
      · exact Or.inl h
      · rcases List.mem_cons.mp hi0 with hi0 | hi0
        · exact absurd (hi0 ▸ heq).symm hnum
        · exact Or.inr ⟨i0, hi0, heq⟩

/-- C5: in a batch run over the open issues (no specific issue requested, no
completion/update/label errors): sentinel-labelled issues are never passed to
the per-issue workflow, exactly N−M issues are evaluated (N open, M
sentinel-labelled), every open issue ends the run carrying the sentinel
label, and the reported counts satisfy validated + skipped = N. -/
theorem executeValidator_batch (env : VEnv) (al : Int → Except Str Unit)
    (agent : PluginAgent) (params : List (Str × GoVal)) (w : World)
    (hparams : (validatorParamIssue params).2 = false)
    (hllm : ∀ p, ∃ r, env.llm p = .ok r)
    (hupd : ∀ n b, env.updateIssue n b = .ok ())
    (hal : ∀ n, al n = .ok ()) :
    (∀ i : Issue, hasValidatorLabel i = true →
        i ∉ (executeValidator env al agent params w).2.2)
    ∧ (executeValidator env al agent params w).2.2.length
        + ((listOpenIssues w).filter (fun i => hasValidatorLabel i)).length
      = (listOpenIssues w).length
    ∧ (∀ j ∈ (executeValidator env al agent params w).2.1.issues,
        j.state = ("open").toList → hasValidatorLabel j = true)
    ∧ (∃ r v s, (executeValidator env al agent params w).1 = .ok r
        ∧ mapGet r (("validated_count").toList) = some (.vint v)
        ∧ mapGet r (("skipped_count").toList) = some (.vint s)
        ∧ v + s = ((listOpenIssues w).length : Int)) := by
  have hok : ∀ i : Issue, ∃ v c,
      (validateAndFix env defaultValidatorRules i).1 = .ok (v, c) :=
    fun i => validateAndFix_isOk env defaultValidatorRules i hllm hupd
  rcases hpn : validatorParamIssue params with ⟨p1, p2⟩
  rw [hpn] at hparams
  simp only at hparams
  subst hparams
  unfold executeValidator
  rw [hpn]
  simp only [Bool.false_and]
  by_cases htv : (listOpenIssues w).filter (fun i => !hasValidatorLabel i) = []
  · simp only [if_pos htv]
    refine ⟨?_, ?_, ?_, ?_⟩
    · intro i _ hmem
      exact absurd hmem (List.not_mem_nil i)
    · have hsplit := length_filter_split (listOpenIssues w) hasValidatorLabel
      rw [htv] at hsplit
      simpa using hsplit
    · intro j hj hopen
      by_cases hs : hasValidatorLabel j = true
      · exact hs
      · have hmemL : j ∈ (listOpenIssues w).filter (fun i => !hasValidatorLabel i) := by
          refine List.mem_filter.mpr ⟨?_, by simp [hs]⟩
          exact List.mem_filter.mpr ⟨hj, by simp [hopen]⟩
        rw [htv] at hmemL
        exact absurd hmemL (List.not_mem_nil j)
    · exact ⟨_, 0, (listOpenIssues w).length, rfl, rfl, rfl, by omega⟩
  · simp only [if_neg htv]
    rcases validatorLoop_stats env al hok
        ((listOpenIssues w).filter (fun i => !hasValidatorLabel i))
        ⟨w, 0, 0, [], [], []⟩ with ⟨hc, hv, he⟩
    simp only at hc hv he
    simp only [he, if_pos]
    refine ⟨?_, ?_, ?_, ?_⟩
    · intro i hi hmem
      rw [hc] at hmem
      simp only [List.nil_append] at hmem
      have := (List.mem_filter.mp hmem).2
      rw [hi] at this
      simp at this
    · rw [hc]
      simp only [List.nil_append]
      exact length_filter_split (listOpenIssues w) hasValidatorLabel
    · refine validatorLoop_labels env al hok hal _ _ ?_
      intro j hj hopen
      by_cases hs : hasValidatorLabel j = true
      · exact Or.inl hs
      · refine Or.inr ⟨j, ?_, rfl⟩
        refine List.mem_filter.mpr ⟨?_, by simp [hs]⟩
        exact List.mem_filter.mpr ⟨hj, by simp [hopen]⟩
    · refine ⟨_,
        ((validatorLoop env al
          ((listOpenIssues w).filter (fun i => !hasValidatorLabel i))
          ⟨w, 0, 0, [], [], []⟩).validatedCount : Int),
        (((listOpenIssues w).length : Int)
          - (validatorLoop env al
              ((listOpenIssues w).filter (fun i => !hasValidatorLabel i))
              ⟨w, 0, 0, [], [], []⟩).validatedCount : Int),
        rfl, rfl, rfl, by omega⟩

/-- Witness for C5: a two-issue world (one already sentinel-labelled), an
environment whose completion and update capabilities always succeed, and an
always-succeeding label endpoint; every open issue ends the run labelled. -/
theorem executeValidator_batch_witness :
    (validatorParamIssue []).2 = false
    ∧ (∀ j ∈ (executeValidator commentFailVEnv (fun _ => .ok ()) keywordAgent []
          ⟨[⟨1, [], [], ("open").toList, [("agent-validator").toList], [], []⟩,
            emptyIssue]⟩).2.1.issues,
        j.state = ("open").toList → hasValidatorLabel j = true) :=
  ⟨by decide,
   (executeValidator_batch commentFailVEnv (fun _ => .ok ()) keywordAgent []
     ⟨[⟨1, [], [], ("open").toList, [("agent-validator").toList], [], []⟩,
       emptyIssue]⟩
     (by decide) (fun _ => ⟨("ok").toList, rfl⟩) (fun _ _ => rfl)
     (fun _ => rfl)).2.2.1⟩
